import Mathlib

/-!
Shallow embedding of the Supergent/tenant-babyst2 to-do application
(Convex backend layer) and verification of its specification claims.

The embedding follows the source files:
  - `convex/helpers/validation.ts` (pure validation helpers),
  - `convex/db/tasks.ts` and `convex/db/messages.ts` (database layer),
  - `convex/endpoints/tasks.ts` and `convex/endpoints/assistant.ts`
    (endpoint layer: authentication, rate limiting, validation,
    ownership checks, delegation).

Tables are association lists kept in insertion order; every inserted row
receives a fresh id from a global counter, so row ids record creation
order (Convex orders index scans by `_creationTime`, which is likewise
strictly increasing in insertion order).  `Date.now()` is modelled by an
explicit `now : Nat` argument to each mutation.  Authentication
(`authComponent.getAuthUser`) is modelled by an `auth : Option String`
argument (the authenticated user id, when present) and the external rate
limiter (`rateLimiter.limit(...).ok`) by a boolean `rlOk` argument.
Throwing is modelled with `Except Err`.
-/

namespace Todo

/-- Task status values from the schema: `"active" | "completed" | "deleted"`. -/
inductive TaskStatus where
  | active
  | completed
  | deleted
deriving DecidableEq, Repr

/-- Thread status values: `"active" | "archived"`. -/
inductive ThreadStatus where
  | active
  | archived
deriving DecidableEq, Repr

/-- Message role values: `"user" | "assistant"`. -/
inductive Role where
  | user
  | assistant
deriving DecidableEq, Repr

/-- A row of the `tasks` table (fields from `convex/db/tasks.ts` inserts/patches). -/
structure Task where
  userId : String
  title : String
  description : Option String
  status : TaskStatus
  completedAt : Option Nat
  createdAt : Nat
  updatedAt : Nat
deriving DecidableEq, Repr

/-- A row of the `threads` table (fields from the spec's data model §3). -/
structure Thread where
  userId : String
  title : Option String
  status : ThreadStatus
  createdAt : Nat
  updatedAt : Nat
deriving DecidableEq, Repr

/-- A row of the `messages` table (fields from `convex/db/messages.ts` `createMessage`). -/
structure Message where
  threadId : Nat
  userId : String
  role : Role
  content : String
  createdAt : Nat
deriving DecidableEq, Repr

/-- The persistent store: three tables in insertion (= creation) order plus
the fresh-id counter shared by all tables. -/
structure DB where
  tasks : List (Nat × Task)
  threads : List (Nat × Thread)
  messages : List (Nat × Message)
  nextId : Nat
deriving DecidableEq, Repr

/-- The empty store. -/
def DB.empty : DB := ⟨[], [], [], 0⟩

/-! ## Validation helpers (`convex/helpers/validation.ts`)

The helpers call the JavaScript string primitives `trim()`, `slice(0, n)`
and `length`; these are modelled executably on the string's character
list (`jsTrim`, `jsSlice`, and `String.length`). -/

/-- JavaScript `String.prototype.trim()`: strip whitespace from both ends. -/
def jsTrim (s : String) : String :=
  String.mk (((s.data.dropWhile Char.isWhitespace).reverse.dropWhile
    Char.isWhitespace).reverse)

/-- JavaScript `String.prototype.slice(0, n)`: the first `n` characters. -/
def jsSlice (s : String) (n : Nat) : String :=
  String.mk (s.data.take n)

/-- `isValidTaskTitle`: `title.trim().length > 0 && title.length <= 200`. -/
def isValidTaskTitle (title : String) : Bool :=
  decide (0 < (jsTrim title).length) && decide (title.length ≤ 200)

/-- `isValidTaskDescription`: `undefined` is valid; otherwise `length <= 5000`. -/
def isValidTaskDescription : Option String → Bool
  | none => true
  | some d => decide (d.length ≤ 5000)

/-- `isValidMessageContent`: `content.trim().length > 0 && content.length <= 10000`. -/
def isValidMessageContent (content : String) : Bool :=
  decide (0 < (jsTrim content).length) && decide (content.length ≤ 10000)

/-- `sanitizeTaskTitle`: `title.trim().slice(0, 200)`. -/
def sanitizeTaskTitle (title : String) : String :=
  jsSlice (jsTrim title) 200

/-- `sanitizeTaskDescription`: `undefined` passes through; otherwise `trim().slice(0, 5000)`. -/
def sanitizeTaskDescription : Option String → Option String
  | none => none
  | some d => some (jsSlice (jsTrim d) 5000)

/-- Result shape of `validateAndSanitizeTask`: either an error message or
the sanitized `(title, description)` pair. -/
inductive TaskValidation where
  | invalid (error : String)
  | valid (title : String) (description : Option String)
deriving DecidableEq, Repr

/-- `validateAndSanitizeTask`: title check first, then description check,
then the sanitized payload. -/
def validateAndSanitizeTask (title : String) (description : Option String) :
    TaskValidation :=
  if !isValidTaskTitle title then
    .invalid "Task title must be between 1 and 200 characters"
  else if !isValidTaskDescription description then
    .invalid "Task description must be less than 5000 characters"
  else
    .valid (sanitizeTaskTitle title) (sanitizeTaskDescription description)

/-! ## Database layer: tasks (`convex/db/tasks.ts`) -/

/-- `createTask`: insert a new row with `status: "active"`, `createdAt` and
`updatedAt` set to `Date.now()`, and no `completedAt` field.  Returns the
updated store and the new row id. -/
def createTask (db : DB) (now : Nat) (userId title : String)
    (description : Option String) : DB × Nat :=
  ({ db with
      tasks := db.tasks ++
        [(db.nextId,
          { userId := userId, title := title, description := description,
            status := .active, completedAt := none,
            createdAt := now, updatedAt := now })],
      nextId := db.nextId + 1 },
   db.nextId)

/-- `getTaskById`: `ctx.db.get(id)`. -/
def getTaskById (db : DB) (id : Nat) : Option Task :=
  (db.tasks.find? (fun e => decide (e.1 = id))).map Prod.snd

/-- `getTasksByUser`: index scan `by_user`, `order("desc")` (reverse creation). -/
def getTasksByUser (db : DB) (userId : String) : List (Nat × Task) :=
  (db.tasks.filter (fun e => decide (e.2.userId = userId))).reverse

/-- `getTasksByUserAndStatus`: index scan `by_user_and_status`, `order("desc")`. -/
def getTasksByUserAndStatus (db : DB) (userId : String) (status : TaskStatus) :
    List (Nat × Task) :=
  (db.tasks.filter
    (fun e => decide (e.2.userId = userId) && decide (e.2.status = status))).reverse

/-- `getActiveTasksByUser` delegates to `getTasksByUserAndStatus(..., "active")`. -/
def getActiveTasksByUser (db : DB) (userId : String) : List (Nat × Task) :=
  getTasksByUserAndStatus db userId .active

/-- `getCompletedTasksByUser` delegates to `getTasksByUserAndStatus(..., "completed")`. -/
def getCompletedTasksByUser (db : DB) (userId : String) : List (Nat × Task) :=
  getTasksByUserAndStatus db userId .completed

/-- `ctx.db.patch` on the `tasks` table: apply `f` to every row whose id matches. -/
def patchTasks (db : DB) (id : Nat) (f : Task → Task) : DB :=
  { db with tasks := db.tasks.map (fun e => if e.1 = id then (e.1, f e.2) else e) }

/-- `completeTask`: patch `status: "completed"`, `completedAt: Date.now()`,
`updatedAt: Date.now()`. -/
def completeTask (db : DB) (now : Nat) (id : Nat) : DB :=
  patchTasks db id (fun t =>
    { t with status := .completed, completedAt := some now, updatedAt := now })

/-- `reactivateTask`: patch `status: "active"`, `completedAt: undefined`
(which removes the field), `updatedAt: Date.now()`. -/
def reactivateTask (db : DB) (now : Nat) (id : Nat) : DB :=
  patchTasks db id (fun t =>
    { t with status := .active, completedAt := none, updatedAt := now })

/-- `updateTask`: patch the supplied fields (`...args`) plus `updatedAt`;
absent optional fields leave the stored values untouched. -/
def updateTask (db : DB) (now : Nat) (id : Nat)
    (title description : Option String) : DB :=
  patchTasks db id (fun t =>
    { t with title := title.getD t.title,
             description := (description.map some).getD t.description,
             updatedAt := now })

/-- `softDeleteTask`: patch `status: "deleted"`, `updatedAt: Date.now()`.
Note: `completedAt` is NOT touched. -/
def softDeleteTask (db : DB) (now : Nat) (id : Nat) : DB :=
  patchTasks db id (fun t => { t with status := .deleted, updatedAt := now })

/-- `hardDeleteTask`: `ctx.db.delete(id)` removes the row. -/
def hardDeleteTask (db : DB) (id : Nat) : DB :=
  { db with tasks := db.tasks.filter (fun e => decide (¬ e.1 = id)) }

/-! ## Database layer: messages (`convex/db/messages.ts`) -/

/-- `createMessage`: insert a row with `createdAt: Date.now()`. -/
def createMessage (db : DB) (now : Nat) (threadId : Nat) (userId : String)
    (role : Role) (content : String) : DB × Nat :=
  ({ db with
      messages := db.messages ++
        [(db.nextId,
          { threadId := threadId, userId := userId, role := role,
            content := content, createdAt := now })],
      nextId := db.nextId + 1 },
   db.nextId)

/-- `getMessagesByThread`: index scan `by_thread`, `order("asc")`
(chronological order for chat). -/
def getMessagesByThread (db : DB) (threadId : Nat) : List (Nat × Message) :=
  db.messages.filter (fun e => decide (e.2.threadId = threadId))

/-- `deleteMessagesByThread`: collect the thread's messages and delete each. -/
def deleteMessagesByThread (db : DB) (threadId : Nat) : DB :=
  { db with messages := db.messages.filter (fun e => decide (¬ e.2.threadId = threadId)) }

/-! ## Database layer: threads

`convex/db/threads.ts` is referenced by the endpoint layer but is not
present in the source tree; the functions below are modelled from the
spec (§3 data model and §4.2/§4.4: threads are user-owned rows with
optional title and `active`/`archived` status; deleting a thread removes
the row). -/

/-- Modelled from the spec: `createThread` from the missing
`convex/db/threads.ts` inserts a new active thread owned by the user. -/
def createThread (db : DB) (now : Nat) (userId : String)
    (title : Option String) : DB × Nat :=
  ({ db with
      threads := db.threads ++
        [(db.nextId,
          { userId := userId, title := title, status := .active,
            createdAt := now, updatedAt := now })],
      nextId := db.nextId + 1 },
   db.nextId)

/-- Modelled from the spec: `getThreadById` from the missing
`convex/db/threads.ts` is `ctx.db.get(id)` on the threads table. -/
def getThreadById (db : DB) (id : Nat) : Option Thread :=
  (db.threads.find? (fun e => decide (e.1 = id))).map Prod.snd

/-- Modelled from the spec: `updateThread` from the missing
`convex/db/threads.ts` patches the title and `updatedAt`. -/
def updateThread (db : DB) (now : Nat) (id : Nat) (title : String) : DB :=
  { db with
      threads := db.threads.map (fun e =>
        if e.1 = id then (e.1, { e.2 with title := some title, updatedAt := now })
        else e) }

/-- Modelled from the spec: `archiveThread` from the missing
`convex/db/threads.ts` sets `status: "archived"`. -/
def archiveThread (db : DB) (now : Nat) (id : Nat) : DB :=
  { db with
      threads := db.threads.map (fun e =>
        if e.1 = id then (e.1, { e.2 with status := .archived, updatedAt := now })
        else e) }

/-- Modelled from the spec: `deleteThread` from the missing
`convex/db/threads.ts` removes the thread row (`ctx.db.delete`). -/
def deleteThreadRow (db : DB) (id : Nat) : DB :=
  { db with threads := db.threads.filter (fun e => decide (¬ e.1 = id)) }

/-! ## Errors thrown by the endpoint layer -/

/-- The failure taxonomy of the endpoint layer (spec §7); validation
failures carry the human-readable message thrown by the endpoint. -/
inductive Err where
  | notAuthenticated
  | rateLimited
  | validationFailed (msg : String)
  | notFound
  | notAuthorized
deriving DecidableEq, Repr

end Todo

deriving instance DecidableEq for Except

namespace Todo

/-! ## Endpoint layer: tasks (`convex/endpoints/tasks.ts`)

Each endpoint receives the authentication result `auth` (the user id when
authenticated), the rate limiter verdict `rlOk` (for mutations), the
current time `now` (for mutations) and the store, and either throws an
`Err` or returns the updated store / query result. -/

namespace Tasks

/-- `tasks.create`: authentication, rate limit, validation+sanitization,
then `createTask` with the sanitized payload. -/
def create (auth : Option String) (rlOk : Bool) (now : Nat) (db : DB)
    (title : String) (description : Option String) : Except Err (DB × Nat) :=
  match auth with
  | none => .error .notAuthenticated
  | some user =>
    if !rlOk then .error .rateLimited
    else
      match validateAndSanitizeTask title description with
      | .invalid e => .error (.validationFailed e)
      | .valid t d => .ok (createTask db now user t d)

/-- `tasks.list`: authentication, then `getTasksByUser`. -/
def list (auth : Option String) (db : DB) : Except Err (List (Nat × Task)) :=
  match auth with
  | none => .error .notAuthenticated
  | some user => .ok (getTasksByUser db user)

/-- `tasks.listActive`: authentication, then `getActiveTasksByUser`. -/
def listActive (auth : Option String) (db : DB) : Except Err (List (Nat × Task)) :=
  match auth with
  | none => .error .notAuthenticated
  | some user => .ok (getActiveTasksByUser db user)

/-- `tasks.listCompleted`: authentication, then `getCompletedTasksByUser`. -/
def listCompleted (auth : Option String) (db : DB) : Except Err (List (Nat × Task)) :=
  match auth with
  | none => .error .notAuthenticated
  | some user => .ok (getCompletedTasksByUser db user)

/-- `tasks.get`: authentication, lookup, ownership check. -/
def get (auth : Option String) (db : DB) (id : Nat) : Except Err Task :=
  match auth with
  | none => .error .notAuthenticated
  | some user =>
    match getTaskById db id with
    | none => .error .notFound
    | some task =>
      if task.userId ≠ user then .error .notAuthorized
      else .ok task

/-- `tasks.update`: authentication, rate limit, lookup+ownership check,
then validation (only when a field is supplied), then `updateTask` with
the RAW arguments (the sanitized result of the validation is discarded). -/
def update (auth : Option String) (rlOk : Bool) (now : Nat) (db : DB)
    (id : Nat) (title description : Option String) : Except Err DB :=
  match auth with
  | none => .error .notAuthenticated
  | some user =>
    if !rlOk then .error .rateLimited
    else
      match getTaskById db id with
      | none => .error .notFound
      | some task =>
        if task.userId ≠ user then .error .notAuthorized
        else if title.isSome || description.isSome then
          match validateAndSanitizeTask (title.getD task.title) description with
          | .invalid e => .error (.validationFailed e)
          | .valid _ _ => .ok (updateTask db now id title description)
        else .ok (updateTask db now id title description)

/-- `tasks.complete`: authentication, rate limit, lookup+ownership check,
then `completeTask`. -/
def complete (auth : Option String) (rlOk : Bool) (now : Nat) (db : DB)
    (id : Nat) : Except Err DB :=
  match auth with
  | none => .error .notAuthenticated
  | some user =>
    if !rlOk then .error .rateLimited
    else
      match getTaskById db id with
      | none => .error .notFound
      | some task =>
        if task.userId ≠ user then .error .notAuthorized
        else .ok (completeTask db now id)

/-- `tasks.reactivate`: authentication, rate limit, lookup+ownership check,
then `reactivateTask`. -/
def reactivate (auth : Option String) (rlOk : Bool) (now : Nat) (db : DB)
    (id : Nat) : Except Err DB :=
  match auth with
  | none => .error .notAuthenticated
  | some user =>
    if !rlOk then .error .rateLimited
    else
      match getTaskById db id with
      | none => .error .notFound
      | some task =>
        if task.userId ≠ user then .error .notAuthorized
        else .ok (reactivateTask db now id)

/-- `tasks.remove` (soft delete): authentication, rate limit,
lookup+ownership check, then `softDeleteTask`. -/
def remove (auth : Option String) (rlOk : Bool) (now : Nat) (db : DB)
    (id : Nat) : Except Err DB :=
  match auth with
  | none => .error .notAuthenticated
  | some user =>
    if !rlOk then .error .rateLimited
    else
      match getTaskById db id with
      | none => .error .notFound
      | some task =>
        if task.userId ≠ user then .error .notAuthorized
        else .ok (softDeleteTask db now id)

/-- `tasks.permanentlyDelete`: authentication, rate limit,
lookup+ownership check, then `hardDeleteTask`. -/
def permanentlyDelete (auth : Option String) (rlOk : Bool) (db : DB)
    (id : Nat) : Except Err DB :=
  match auth with
  | none => .error .notAuthenticated
  | some user =>
    if !rlOk then .error .rateLimited
    else
      match getTaskById db id with
      | none => .error .notFound
      | some task =>
        if task.userId ≠ user then .error .notAuthorized
        else .ok (hardDeleteTask db id)

end Tasks

/-! ## Endpoint layer: assistant (`convex/endpoints/assistant.ts`) -/

/-- The assistant's placeholder response from `sendMessage` step 7: a fixed
template that interpolates the incoming message content (no model call). -/
def aiResponseContent (content : String) : String :=
  "I'm your task assistant. I received your message: \"" ++ content ++
  "\".\n\nIn a full implementation, I would:\n- Analyze your message for task-related insights\n- Provide helpful suggestions for task management\n- Help you break down complex tasks\n- Offer productivity tips\n\nThis is a placeholder response. To enable full AI functionality, ensure your AI provider (OpenAI or Anthropic) is properly configured."

namespace Assistant

/-- `assistant.createThread`: authentication, rate limit, then `createThread`. -/
def createThread (auth : Option String) (rlOk : Bool) (now : Nat) (db : DB)
    (title : Option String) : Except Err (DB × Nat) :=
  match auth with
  | none => .error .notAuthenticated
  | some user =>
    if !rlOk then .error .rateLimited
    else .ok (Todo.createThread db now user title)

/-- `assistant.getThread`: authentication, lookup, ownership check, then the
thread together with `getMessagesByThread` (ascending). -/
def getThread (auth : Option String) (db : DB) (id : Nat) :
    Except Err (Thread × List (Nat × Message)) :=
  match auth with
  | none => .error .notAuthenticated
  | some user =>
    match getThreadById db id with
    | none => .error .notFound
    | some thread =>
      if thread.userId ≠ user then .error .notAuthorized
      else .ok (thread, getMessagesByThread db id)

/-- `assistant.sendMessage`: authentication, rate limit, content validation,
thread lookup+ownership check, then persist the user message followed by
the placeholder assistant message.  Returns the store and both new ids. -/
def sendMessage (auth : Option String) (rlOk : Bool) (now : Nat) (db : DB)
    (threadId : Nat) (content : String) : Except Err (DB × Nat × Nat) :=
  match auth with
  | none => .error .notAuthenticated
  | some user =>
    if !rlOk then .error .rateLimited
    else if !isValidMessageContent content then
      .error (.validationFailed "Message content must be between 1 and 10,000 characters")
    else
      match getThreadById db threadId with
      | none => .error .notFound
      | some thread =>
        if thread.userId ≠ user then .error .notAuthorized
        else
          let r1 := createMessage db now threadId user .user content
          let r2 := createMessage r1.1 now threadId user .assistant (aiResponseContent content)
          .ok (r2.1, r1.2, r2.2)

/-- `assistant.updateThread`: authentication, lookup+ownership check (no
rate limit in the source), then `updateThread`. -/
def updateThread (auth : Option String) (now : Nat) (db : DB)
    (id : Nat) (title : String) : Except Err DB :=
  match auth with
  | none => .error .notAuthenticated
  | some user =>
    match getThreadById db id with
    | none => .error .notFound
    | some thread =>
      if thread.userId ≠ user then .error .notAuthorized
      else .ok (Todo.updateThread db now id title)

/-- `assistant.archiveThread`: authentication, lookup+ownership check, then
`archiveThread`. -/
def archiveThread (auth : Option String) (now : Nat) (db : DB)
    (id : Nat) : Except Err DB :=
  match auth with
  | none => .error .notAuthenticated
  | some user =>
    match getThreadById db id with
    | none => .error .notFound
    | some thread =>
      if thread.userId ≠ user then .error .notAuthorized
      else .ok (Todo.archiveThread db now id)

/-- `assistant.deleteThread`: authentication, lookup+ownership check, then
delete all the thread's messages and finally the thread row itself. -/
def deleteThread (auth : Option String) (db : DB) (id : Nat) : Except Err DB :=
  match auth with
  | none => .error .notAuthenticated
  | some user =>
    match getThreadById db id with
    | none => .error .notFound
    | some thread =>
      if thread.userId ≠ user then .error .notAuthorized
      else .ok (deleteThreadRow (deleteMessagesByThread db id) id)

end Assistant

/-! ## The transition system

A `Step` is one successful call of a mutating endpoint, with arbitrary
authentication result, rate-limiter verdict, clock value and arguments;
`Reachable` are the stores reachable from the empty store. -/

/-- One successful mutating endpoint call. -/
inductive Step : DB → DB → Prop where
  | create {a : Option String} {r : Bool} {n : Nat} {db b : DB}
      {t : String} {d : Option String} {i : Nat}
      (h : Tasks.create a r n db t d = .ok (b, i)) : Step db b
  | update {a : Option String} {r : Bool} {n i : Nat} {db b : DB}
      {t d : Option String}
      (h : Tasks.update a r n db i t d = .ok b) : Step db b
  | complete {a : Option String} {r : Bool} {n i : Nat} {db b : DB}
      (h : Tasks.complete a r n db i = .ok b) : Step db b
  | reactivate {a : Option String} {r : Bool} {n i : Nat} {db b : DB}
      (h : Tasks.reactivate a r n db i = .ok b) : Step db b
  | remove {a : Option String} {r : Bool} {n i : Nat} {db b : DB}
      (h : Tasks.remove a r n db i = .ok b) : Step db b
  | permanentlyDelete {a : Option String} {r : Bool} {i : Nat} {db b : DB}
      (h : Tasks.permanentlyDelete a r db i = .ok b) : Step db b
  | createThread {a : Option String} {r : Bool} {n : Nat} {db b : DB}
      {t : Option String} {i : Nat}
      (h : Assistant.createThread a r n db t = .ok (b, i)) : Step db b
  | sendMessage {a : Option String} {r : Bool} {n i j k : Nat} {db b : DB}
      {c : String}
      (h : Assistant.sendMessage a r n db i c = .ok (b, j, k)) : Step db b
  | updateThread {a : Option String} {n i : Nat} {db b : DB} {t : String}
      (h : Assistant.updateThread a n db i t = .ok b) : Step db b
  | archiveThread {a : Option String} {n i : Nat} {db b : DB}
      (h : Assistant.archiveThread a n db i = .ok b) : Step db b
  | deleteThread {a : Option String} {i : Nat} {db b : DB}
      (h : Assistant.deleteThread a db i = .ok b) : Step db b

/-- Stores reachable from the empty store through the public endpoints. -/
inductive Reachable : DB → Prop where
  | empty : Reachable DB.empty
  | step {db b : DB} (h : Reachable db) (hs : Step db b) : Reachable b

/-- A table's row ids are strictly increasing in insertion order and below
the fresh-id counter. -/
def IdsOk {α : Type} (l : List (Nat × α)) (bound : Nat) : Prop :=
  l.Pairwise (fun a b => a.1 < b.1) ∧ ∀ e ∈ l, e.1 < bound

/-- Store invariant: every table's ids are strictly increasing (creation
order) and below `nextId`. -/
def DB.Inv (db : DB) : Prop :=
  IdsOk db.tasks db.nextId ∧ IdsOk db.threads db.nextId ∧ IdsOk db.messages db.nextId

/-- The status / `completedAt` relationship maintained by the code: an
active task carries no `completedAt` and a completed task carries one.
(A soft-deleted task may retain a stale `completedAt`.) -/
def Task.StatusAligned (t : Task) : Prop :=
  (t.status = .active → t.completedAt = none) ∧
  (t.status = .completed → t.completedAt.isSome = true)

/-- All tasks of the store satisfy `Task.StatusAligned`. -/
def DB.TasksAligned (db : DB) : Prop :=
  ∀ e ∈ db.tasks, e.2.StatusAligned

/-! ## Concrete endpoint traces used to refute claims -/

/-- Trace for the completedAt invariant: create, complete, then soft-delete
a task; report its final status and whether `completedAt` is still set. -/
def removeCompletedTrace : Except Err (Option (TaskStatus × Bool)) := do
  let (db1, i) ← Tasks.create (some "u") true 0 DB.empty "Buy milk" none
  let db2 ← Tasks.complete (some "u") true 1 db1 i
  let db3 ← Tasks.remove (some "u") true 2 db2 i
  pure ((getTaskById db3 i).map fun t => (t.status, t.completedAt.isSome))

/-- Trace for the state machine: create, soft-delete, then reactivate a
task; report its final status. -/
def reactivateDeletedTrace : Except Err (Option TaskStatus) := do
  let (db1, i) ← Tasks.create (some "u") true 0 DB.empty "Buy milk" none
  let db2 ← Tasks.remove (some "u") true 1 db1 i
  let db3 ← Tasks.reactivate (some "u") true 2 db2 i
  pure ((getTaskById db3 i).map (·.status))

/-- Trace for the check order: a task of user alice is updated by
authenticated, non-rate-limited user bob with an invalid title. -/
def updateForeignInvalidTrace : Except Err DB := do
  let (db1, i) ← Tasks.create (some "alice") true 0 DB.empty "Buy milk" none
  Tasks.update (some "bob") true 1 db1 i (some "") none

/-- Trace for the assistant placeholder: create a thread, send `s`, and
report the content stored for the assistant's reply. -/
def assistantReplyContent (s : String) : Except Err (Option String) := do
  let (db1, tid) ← Assistant.createThread (some "u") true 0 DB.empty none
  let (db2, _, aId) ← Assistant.sendMessage (some "u") true 1 db1 tid s
  pure ((db2.messages.find? (fun e => decide (e.1 = aId))).map (·.2.content))

/-- A sample store built by three successful endpoint calls (create a
thread, one sendMessage exchange, one task), used to instantiate the
ordering results on concrete data. -/
def sampleDB : DB :=
  (createTask
    (createMessage
      (createMessage (createThread DB.empty 0 "u" none).1 1 0 "u" .user "hello").1
      1 0 "u" .assistant (aiResponseContent "hello")).1
    2 "u" "Buy milk" none).1

/-! ## Inversion lemmas for successful endpoint calls -/

theorem validateAndSanitizeTask_eq_valid {t t' : String} {d d' : Option String} :
    validateAndSanitizeTask t d = .valid t' d' ↔
      isValidTaskTitle t = true ∧ isValidTaskDescription d = true ∧
      t' = sanitizeTaskTitle t ∧ d' = sanitizeTaskDescription d := by
  unfold validateAndSanitizeTask
  cases h1 : isValidTaskTitle t <;> cases h2 : isValidTaskDescription d <;>
    simp [h1, h2, eq_comm]

theorem Tasks.create_ok {a : Option String} {r : Bool} {n : Nat} {db : DB}
    {t : String} {d : Option String} {p : DB × Nat}
    (h : Tasks.create a r n db t d = .ok p) :
    ∃ u, a = some u ∧ r = true ∧
      isValidTaskTitle t = true ∧ isValidTaskDescription d = true ∧
      p = createTask db n u (sanitizeTaskTitle t) (sanitizeTaskDescription d) := by
  cases a with
  | none => exact absurd h (by simp [Tasks.create])
  | some u =>
    cases r with
    | false => exact absurd h (by simp [Tasks.create])
    | true =>
      unfold Tasks.create at h
      simp only [Bool.not_true, Bool.false_eq_true, if_false] at h
      cases hv : validateAndSanitizeTask t d with
      | invalid e => rw [hv] at h; exact absurd h (by simp)
      | valid t' d' =>
        rw [hv] at h
        simp only [Except.ok.injEq] at h
        obtain ⟨hvt, hvd, ht, hd⟩ := validateAndSanitizeTask_eq_valid.1 hv
        exact ⟨u, rfl, rfl, hvt, hvd, by rw [← h, ht, hd]⟩

theorem Tasks.update_ok {a : Option String} {r : Bool} {n i : Nat} {db b : DB}
    {t d : Option String}
    (h : Tasks.update a r n db i t d = .ok b) :
    ∃ u task, a = some u ∧ r = true ∧ getTaskById db i = some task ∧
      task.userId = u ∧ b = updateTask db n i t d := by
  cases a with
  | none => exact absurd h (by simp [Tasks.update])
  | some u =>
    cases r with
    | false => exact absurd h (by simp [Tasks.update])
    | true =>
      unfold Tasks.update at h
      simp only [Bool.not_true, Bool.false_eq_true, if_false] at h
      cases hf : getTaskById db i with
      | none => rw [hf] at h; exact absurd h (by simp)
      | some task =>
        rw [hf] at h
        dsimp only at h
        by_cases ho : task.userId = u
        · rw [if_neg (by simp [ho])] at h
          by_cases hs : (t.isSome || d.isSome) = true
          · rw [if_pos hs] at h
            cases hv : validateAndSanitizeTask (t.getD task.title) d with
            | invalid e => rw [hv] at h; exact absurd h (by simp)
            | valid t' d' =>
              rw [hv] at h
              simp only [Except.ok.injEq] at h
              exact ⟨u, task, rfl, rfl, rfl, ho, h.symm⟩
          · rw [if_neg hs] at h
            simp only [Except.ok.injEq] at h
            exact ⟨u, task, rfl, rfl, rfl, ho, h.symm⟩
        · rw [if_pos (by simp [ho])] at h
          exact absurd h (by simp)

theorem Tasks.complete_ok {a : Option String} {r : Bool} {n i : Nat} {db b : DB}
    (h : Tasks.complete a r n db i = .ok b) :
    ∃ u task, a = some u ∧ r = true ∧ getTaskById db i = some task ∧
      task.userId = u ∧ b = completeTask db n i := by
  cases a with
  | none => exact absurd h (by simp [Tasks.complete])
  | some u =>
    cases r with
    | false => exact absurd h (by simp [Tasks.complete])
    | true =>
      unfold Tasks.complete at h
      simp only [Bool.not_true, Bool.false_eq_true, if_false] at h
      cases hf : getTaskById db i with
      | none => rw [hf] at h; exact absurd h (by simp)
      | some task =>
        rw [hf] at h
        dsimp only at h
        by_cases ho : task.userId = u
        · rw [if_neg (by simp [ho])] at h
          simp only [Except.ok.injEq] at h
          exact ⟨u, task, rfl, rfl, rfl, ho, h.symm⟩
        · rw [if_pos (by simp [ho])] at h
          exact absurd h (by simp)

theorem Tasks.reactivate_ok {a : Option String} {r : Bool} {n i : Nat} {db b : DB}
    (h : Tasks.reactivate a r n db i = .ok b) :
    ∃ u task, a = some u ∧ r = true ∧ getTaskById db i = some task ∧
      task.userId = u ∧ b = reactivateTask db n i := by
  cases a with
  | none => exact absurd h (by simp [Tasks.reactivate])
  | some u =>
    cases r with
    | false => exact absurd h (by simp [Tasks.reactivate])
    | true =>
      unfold Tasks.reactivate at h
      simp only [Bool.not_true, Bool.false_eq_true, if_false] at h
      cases hf : getTaskById db i with
      | none => rw [hf] at h; exact absurd h (by simp)
      | some task =>
        rw [hf] at h
        dsimp only at h
        by_cases ho : task.userId = u
        · rw [if_neg (by simp [ho])] at h
          simp only [Except.ok.injEq] at h
          exact ⟨u, task, rfl, rfl, rfl, ho, h.symm⟩
        · rw [if_pos (by simp [ho])] at h
          exact absurd h (by simp)

theorem Tasks.remove_ok {a : Option String} {r : Bool} {n i : Nat} {db b : DB}
    (h : Tasks.remove a r n db i = .ok b) :
    ∃ u task, a = some u ∧ r = true ∧ getTaskById db i = some task ∧
      task.userId = u ∧ b = softDeleteTask db n i := by
  cases a with
  | none => exact absurd h (by simp [Tasks.remove])
  | some u =>
    cases r with
    | false => exact absurd h (by simp [Tasks.remove])
    | true =>
      unfold Tasks.remove at h
      simp only [Bool.not_true, Bool.false_eq_true, if_false] at h
      cases hf : getTaskById db i with
      | none => rw [hf] at h; exact absurd h (by simp)
      | some task =>
        rw [hf] at h
        dsimp only at h
        by_cases ho : task.userId = u
        · rw [if_neg (by simp [ho])] at h
          simp only [Except.ok.injEq] at h
          exact ⟨u, task, rfl, rfl, rfl, ho, h.symm⟩
        · rw [if_pos (by simp [ho])] at h
          exact absurd h (by simp)

theorem Tasks.permanentlyDelete_ok {a : Option String} {r : Bool} {i : Nat}
    {db b : DB}
    (h : Tasks.permanentlyDelete a r db i = .ok b) :
    ∃ u task, a = some u ∧ r = true ∧ getTaskById db i = some task ∧
      task.userId = u ∧ b = hardDeleteTask db i := by
  cases a with
  | none => exact absurd h (by simp [Tasks.permanentlyDelete])
  | some u =>
    cases r with
    | false => exact absurd h (by simp [Tasks.permanentlyDelete])
    | true =>
      unfold Tasks.permanentlyDelete at h
      simp only [Bool.not_true, Bool.false_eq_true, if_false] at h
      cases hf : getTaskById db i with
      | none => rw [hf] at h; exact absurd h (by simp)
      | some task =>
        rw [hf] at h
        dsimp only at h
        by_cases ho : task.userId = u
        · rw [if_neg (by simp [ho])] at h
          simp only [Except.ok.injEq] at h
          exact ⟨u, task, rfl, rfl, rfl, ho, h.symm⟩
        · rw [if_pos (by simp [ho])] at h
          exact absurd h (by simp)

theorem Assistant.createThread_ok {a : Option String} {r : Bool} {n : Nat}
    {db : DB} {t : Option String} {p : DB × Nat}
    (h : Assistant.createThread a r n db t = .ok p) :
    ∃ u, a = some u ∧ r = true ∧ p = Todo.createThread db n u t := by
  cases a with
  | none => exact absurd h (by simp [Assistant.createThread])
  | some u =>
    cases r with
    | false => exact absurd h (by simp [Assistant.createThread])
    | true =>
      unfold Assistant.createThread at h
      simp only [Bool.not_true, Bool.false_eq_true, if_false, Except.ok.injEq] at h
      exact ⟨u, rfl, rfl, h.symm⟩

theorem Assistant.getThread_ok {a : Option String} {db : DB} {i : Nat}
    {p : Thread × List (Nat × Message)}
    (h : Assistant.getThread a db i = .ok p) :
    ∃ u thread, a = some u ∧ getThreadById db i = some thread ∧
      thread.userId = u ∧ p = (thread, getMessagesByThread db i) := by
  cases a with
  | none => exact absurd h (by simp [Assistant.getThread])
  | some u =>
    unfold Assistant.getThread at h
    cases hf : getThreadById db i with
    | none => rw [hf] at h; exact absurd h (by simp)
    | some thread =>
      rw [hf] at h
      dsimp only at h
      by_cases ho : thread.userId = u
      · rw [if_neg (by simp [ho])] at h
        simp only [Except.ok.injEq] at h
        exact ⟨u, thread, rfl, rfl, ho, h.symm⟩
      · rw [if_pos (by simp [ho])] at h
        exact absurd h (by simp)

theorem Assistant.sendMessage_ok {a : Option String} {r : Bool} {n i : Nat}
    {db : DB} {c : String} {p : DB × Nat × Nat}
    (h : Assistant.sendMessage a r n db i c = .ok p) :
    ∃ u thread, a = some u ∧ r = true ∧ isValidMessageContent c = true ∧
      getThreadById db i = some thread ∧ thread.userId = u ∧
      p = ((createMessage (createMessage db n i u .user c).1 n i u .assistant
              (aiResponseContent c)).1,
           (createMessage db n i u .user c).2,
           (createMessage (createMessage db n i u .user c).1 n i u .assistant
              (aiResponseContent c)).2) := by
  cases a with
  | none => exact absurd h (by simp [Assistant.sendMessage])
  | some u =>
    cases r with
    | false => exact absurd h (by simp [Assistant.sendMessage])
    | true =>
      unfold Assistant.sendMessage at h
      simp only [Bool.not_true, Bool.false_eq_true, if_false] at h
      cases hv : isValidMessageContent c with
      | false => rw [hv] at h; exact absurd h (by simp)
      | true =>
        rw [hv] at h
        simp only [Bool.not_true, Bool.false_eq_true, if_false] at h
        cases hf : getThreadById db i with
        | none => rw [hf] at h; exact absurd h (by simp)
        | some thread =>
          rw [hf] at h
          dsimp only at h
          by_cases ho : thread.userId = u
          · rw [if_neg (by simp [ho])] at h
            simp only [Except.ok.injEq] at h
            exact ⟨u, thread, rfl, rfl, rfl, rfl, ho, h.symm⟩
          · rw [if_pos (by simp [ho])] at h
            exact absurd h (by simp)

theorem Assistant.updateThread_ok {a : Option String} {n i : Nat} {db b : DB}
    {t : String}
    (h : Assistant.updateThread a n db i t = .ok b) :
    ∃ u thread, a = some u ∧ getThreadById db i = some thread ∧
      thread.userId = u ∧ b = Todo.updateThread db n i t := by
  cases a with
  | none => exact absurd h (by simp [Assistant.updateThread])
  | some u =>
    unfold Assistant.updateThread at h
    cases hf : getThreadById db i with
    | none => rw [hf] at h; exact absurd h (by simp)
    | some thread =>
      rw [hf] at h
      dsimp only at h
      by_cases ho : thread.userId = u
      · rw [if_neg (by simp [ho])] at h
        simp only [Except.ok.injEq] at h
        exact ⟨u, thread, rfl, rfl, ho, h.symm⟩
      · rw [if_pos (by simp [ho])] at h
        exact absurd h (by simp)

theorem Assistant.archiveThread_ok {a : Option String} {n i : Nat} {db b : DB}
    (h : Assistant.archiveThread a n db i = .ok b) :
    ∃ u thread, a = some u ∧ getThreadById db i = some thread ∧
      thread.userId = u ∧ b = Todo.archiveThread db n i := by
  cases a with
  | none => exact absurd h (by simp [Assistant.archiveThread])
  | some u =>
    unfold Assistant.archiveThread at h
    cases hf : getThreadById db i with
    | none => rw [hf] at h; exact absurd h (by simp)
    | some thread =>
      rw [hf] at h
      dsimp only at h
      by_cases ho : thread.userId = u
      · rw [if_neg (by simp [ho])] at h
        simp only [Except.ok.injEq] at h
        exact ⟨u, thread, rfl, rfl, ho, h.symm⟩
      · rw [if_pos (by simp [ho])] at h
        exact absurd h (by simp)

theorem Assistant.deleteThread_ok {a : Option String} {i : Nat} {db b : DB}
    (h : Assistant.deleteThread a db i = .ok b) :
    ∃ u thread, a = some u ∧ getThreadById db i = some thread ∧
      thread.userId = u ∧ b = deleteThreadRow (deleteMessagesByThread db i) i := by
  cases a with
  | none => exact absurd h (by simp [Assistant.deleteThread])
  | some u =>
    unfold Assistant.deleteThread at h
    cases hf : getThreadById db i with
    | none => rw [hf] at h; exact absurd h (by simp)
    | some thread =>
      rw [hf] at h
      dsimp only at h
      by_cases ho : thread.userId = u
      · rw [if_neg (by simp [ho])] at h
        simp only [Except.ok.injEq] at h
        exact ⟨u, thread, rfl, rfl, ho, h.symm⟩
      · rw [if_pos (by simp [ho])] at h
        exact absurd h (by simp)

/-! ## The id-ordering invariant -/

theorem IdsOk.mono {α : Type} {l : List (Nat × α)} {n m : Nat}
    (h : IdsOk l n) (hnm : n ≤ m) : IdsOk l m :=
  ⟨h.1, fun e he => lt_of_lt_of_le (h.2 e he) hnm⟩

theorem IdsOk.append_fresh {α : Type} {l : List (Nat × α)} {n : Nat}
    (h : IdsOk l n) (x : α) : IdsOk (l ++ [(n, x)]) (n + 1) := by
  constructor
  · rw [List.pairwise_append]
    refine ⟨h.1, List.pairwise_singleton _ _, ?_⟩
    intro a ha b hb
    rw [List.mem_singleton] at hb
    subst hb
    exact h.2 a ha
  · intro e he
    rcases List.mem_append.1 he with h1 | h1
    · exact lt_trans (h.2 e h1) (Nat.lt_succ_self n)
    · rw [List.mem_singleton] at h1
      subst h1
      exact Nat.lt_succ_self n

theorem IdsOk.map_fst {α β : Type} {l : List (Nat × α)} {n : Nat}
    (h : IdsOk l n) (g : Nat × α → Nat × β) (hg : ∀ e, (g e).1 = e.1) :
    IdsOk (l.map g) n := by
  constructor
  · rw [List.pairwise_map]
    exact h.1.imp (fun hab => by rw [hg, hg]; exact hab)
  · intro e he
    rw [List.mem_map] at he
    obtain ⟨x, hx, rfl⟩ := he
    rw [hg]
    exact h.2 x hx

theorem IdsOk.keep {α : Type} {l : List (Nat × α)} {n : Nat}
    (h : IdsOk l n) (p : Nat × α → Bool) : IdsOk (l.filter p) n :=
  ⟨h.1.sublist (List.filter_sublist l),
   fun e he => h.2 e (List.mem_of_mem_filter he)⟩

theorem createTask_inv {db : DB} {n : Nat} {u t : String} {d : Option String}
    (h : db.Inv) : (createTask db n u t d).1.Inv := by
  obtain ⟨h1, h2, h3⟩ := h
  exact ⟨h1.append_fresh _, h2.mono (Nat.le_succ _), h3.mono (Nat.le_succ _)⟩

theorem patchTasks_inv {db : DB} {i : Nat} {f : Task → Task}
    (h : db.Inv) : (patchTasks db i f).Inv := by
  obtain ⟨h1, h2, h3⟩ := h
  refine ⟨h1.map_fst _ ?_, h2, h3⟩
  intro e
  dsimp only
  split <;> rfl

theorem hardDeleteTask_inv {db : DB} {i : Nat} (h : db.Inv) :
    (hardDeleteTask db i).Inv := by
  obtain ⟨h1, h2, h3⟩ := h
  exact ⟨h1.keep _, h2, h3⟩

theorem createThread_inv {db : DB} {n : Nat} {u : String} {t : Option String}
    (h : db.Inv) : (createThread db n u t).1.Inv := by
  obtain ⟨h1, h2, h3⟩ := h
  exact ⟨h1.mono (Nat.le_succ _), h2.append_fresh _, h3.mono (Nat.le_succ _)⟩

theorem createMessage_inv {db : DB} {n i : Nat} {u c : String} {ro : Role}
    (h : db.Inv) : (createMessage db n i u ro c).1.Inv := by
  obtain ⟨h1, h2, h3⟩ := h
  exact ⟨h1.mono (Nat.le_succ _), h2.mono (Nat.le_succ _), h3.append_fresh _⟩

theorem updateThread_inv {db : DB} {n i : Nat} {t : String} (h : db.Inv) :
    (updateThread db n i t).Inv := by
  obtain ⟨h1, h2, h3⟩ := h
  refine ⟨h1, h2.map_fst _ ?_, h3⟩
  intro e
  dsimp only
  split <;> rfl

theorem archiveThread_inv {db : DB} {n i : Nat} (h : db.Inv) :
    (archiveThread db n i).Inv := by
  obtain ⟨h1, h2, h3⟩ := h
  refine ⟨h1, h2.map_fst _ ?_, h3⟩
  intro e
  dsimp only
  split <;> rfl

theorem deleteMessagesByThread_inv {db : DB} {i : Nat} (h : db.Inv) :
    (deleteMessagesByThread db i).Inv := by
  obtain ⟨h1, h2, h3⟩ := h
  exact ⟨h1, h2, h3.keep _⟩

theorem deleteThreadRow_inv {db : DB} {i : Nat} (h : db.Inv) :
    (deleteThreadRow db i).Inv := by
  obtain ⟨h1, h2, h3⟩ := h
  exact ⟨h1, h2.keep _, h3⟩

theorem Step.preservesInv {db b : DB} (hs : Step db b) (h : db.Inv) : b.Inv := by
  cases hs with
  | create h1 =>
    obtain ⟨u, -, -, -, -, hp⟩ := Tasks.create_ok h1
    rw [show b = (createTask _ _ _ _ _).1 from congrArg Prod.fst hp]
    exact createTask_inv h
  | update h1 =>
    obtain ⟨u, task, -, -, -, -, hb⟩ := Tasks.update_ok h1
    rw [hb]
    exact patchTasks_inv h
  | complete h1 =>
    obtain ⟨u, task, -, -, -, -, hb⟩ := Tasks.complete_ok h1
    rw [hb]
    exact patchTasks_inv h
  | reactivate h1 =>
    obtain ⟨u, task, -, -, -, -, hb⟩ := Tasks.reactivate_ok h1
    rw [hb]
    exact patchTasks_inv h
  | remove h1 =>
    obtain ⟨u, task, -, -, -, -, hb⟩ := Tasks.remove_ok h1
    rw [hb]
    exact patchTasks_inv h
  | permanentlyDelete h1 =>
    obtain ⟨u, task, -, -, -, -, hb⟩ := Tasks.permanentlyDelete_ok h1
    rw [hb]
    exact hardDeleteTask_inv h
  | createThread h1 =>
    obtain ⟨u, -, -, hp⟩ := Assistant.createThread_ok h1
    rw [show b = (Todo.createThread _ _ _ _).1 from congrArg Prod.fst hp]
    exact createThread_inv h
  | sendMessage h1 =>
    obtain ⟨u, thread, -, -, -, -, -, hp⟩ := Assistant.sendMessage_ok h1
    rw [show b = (createMessage (createMessage _ _ _ _ _ _).1 _ _ _ _ _).1 from
      congrArg Prod.fst hp]
    exact createMessage_inv (createMessage_inv h)
  | updateThread h1 =>
    obtain ⟨u, thread, -, -, -, hb⟩ := Assistant.updateThread_ok h1
    rw [hb]
    exact updateThread_inv h
  | archiveThread h1 =>
    obtain ⟨u, thread, -, -, -, hb⟩ := Assistant.archiveThread_ok h1
    rw [hb]
    exact archiveThread_inv h
  | deleteThread h1 =>
    obtain ⟨u, thread, -, -, -, hb⟩ := Assistant.deleteThread_ok h1
    rw [hb]
    exact deleteThreadRow_inv (deleteMessagesByThread_inv h)

theorem Reachable.storeInv {db : DB} (h : Reachable db) : db.Inv := by
  induction h with
  | empty => exact ⟨⟨List.Pairwise.nil, by simp [DB.empty]⟩,
      ⟨List.Pairwise.nil, by simp [DB.empty]⟩,
      ⟨List.Pairwise.nil, by simp [DB.empty]⟩⟩
  | step h hs ih => exact hs.preservesInv ih

/-! ## The status / completedAt invariant -/

theorem patchTasks_aligned {db : DB} {i : Nat} {f : Task → Task}
    (hf : ∀ t, t.StatusAligned → (f t).StatusAligned)
    (h : db.TasksAligned) : (patchTasks db i f).TasksAligned := by
  intro e he
  simp only [patchTasks, List.mem_map] at he
  obtain ⟨x, hx, rfl⟩ := he
  by_cases hid : x.1 = i
  · rw [if_pos hid]
    exact hf x.2 (h x hx)
  · rw [if_neg hid]
    exact h x hx

theorem createTask_aligned {db : DB} {n : Nat} {u t : String} {d : Option String}
    (h : db.TasksAligned) : (createTask db n u t d).1.TasksAligned := by
  intro e he
  simp only [createTask, List.mem_append, List.mem_singleton] at he
  rcases he with he | he
  · exact h e he
  · subst he
    exact ⟨fun _ => rfl, fun hc => by simp at hc⟩

theorem completeTask_aligned {db : DB} {n i : Nat}
    (h : db.TasksAligned) : (completeTask db n i).TasksAligned :=
  patchTasks_aligned (fun t _ => ⟨fun ha => by simp at ha, fun _ => rfl⟩) h

theorem reactivateTask_aligned {db : DB} {n i : Nat}
    (h : db.TasksAligned) : (reactivateTask db n i).TasksAligned :=
  patchTasks_aligned (fun t _ => ⟨fun _ => rfl, fun hc => by simp at hc⟩) h

theorem softDeleteTask_aligned {db : DB} {n i : Nat}
    (h : db.TasksAligned) : (softDeleteTask db n i).TasksAligned :=
  patchTasks_aligned (fun t ht =>
    ⟨fun ha => by simp at ha, fun hc => by simp at hc⟩) h

theorem updateTask_aligned {db : DB} {n i : Nat} {t d : Option String}
    (h : db.TasksAligned) : (updateTask db n i t d).TasksAligned :=
  patchTasks_aligned (fun _ hx => ⟨hx.1, hx.2⟩) h

theorem hardDeleteTask_aligned {db : DB} {i : Nat}
    (h : db.TasksAligned) : (hardDeleteTask db i).TasksAligned := by
  intro e he
  exact h e (List.mem_of_mem_filter he)

theorem Step.aligned {db b : DB} (hs : Step db b) (h : db.TasksAligned) :
    b.TasksAligned := by
  cases hs with
  | create h1 =>
    obtain ⟨u, -, -, -, -, hp⟩ := Tasks.create_ok h1
    rw [show b = (createTask _ _ _ _ _).1 from congrArg Prod.fst hp]
    exact createTask_aligned h
  | update h1 =>
    obtain ⟨u, task, -, -, -, -, hb⟩ := Tasks.update_ok h1
    rw [hb]
    exact updateTask_aligned h
  | complete h1 =>
    obtain ⟨u, task, -, -, -, -, hb⟩ := Tasks.complete_ok h1
    rw [hb]
    exact completeTask_aligned h
  | reactivate h1 =>
    obtain ⟨u, task, -, -, -, -, hb⟩ := Tasks.reactivate_ok h1
    rw [hb]
    exact reactivateTask_aligned h
  | remove h1 =>
    obtain ⟨u, task, -, -, -, -, hb⟩ := Tasks.remove_ok h1
    rw [hb]
    exact softDeleteTask_aligned h
  | permanentlyDelete h1 =>
    obtain ⟨u, task, -, -, -, -, hb⟩ := Tasks.permanentlyDelete_ok h1
    rw [hb]
    exact hardDeleteTask_aligned h
  | createThread h1 =>
    obtain ⟨u, -, -, hp⟩ := Assistant.createThread_ok h1
    rw [show b = (Todo.createThread _ _ _ _).1 from congrArg Prod.fst hp]
    exact h
  | sendMessage h1 =>
    obtain ⟨u, thread, -, -, -, -, -, hp⟩ := Assistant.sendMessage_ok h1
    rw [show b = (createMessage (createMessage _ _ _ _ _ _).1 _ _ _ _ _).1 from
      congrArg Prod.fst hp]
    exact h
  | updateThread h1 =>
    obtain ⟨u, thread, -, -, -, hb⟩ := Assistant.updateThread_ok h1
    rw [hb]
    exact h
  | archiveThread h1 =>
    obtain ⟨u, thread, -, -, -, hb⟩ := Assistant.archiveThread_ok h1
    rw [hb]
    exact h
  | deleteThread h1 =>
    obtain ⟨u, thread, -, -, -, hb⟩ := Assistant.deleteThread_ok h1
    rw [hb]
    exact h

theorem Reachable.tasksAligned {db : DB} (h : Reachable db) : db.TasksAligned := by
  induction h with
  | empty => intro e he; simp [DB.empty] at he
  | step h hs ih => exact hs.aligned ih

/-! ## Membership helpers for patched tables -/

theorem patchTasks_at_id {db : DB} {i : Nat} {f : Task → Task} :
    ∀ e ∈ (patchTasks db i f).tasks, e.1 = i → ∃ x ∈ db.tasks, e = (i, f x.2) := by
  intro e he hei
  simp only [patchTasks, List.mem_map] at he
  obtain ⟨x, hx, rfl⟩ := he
  by_cases hid : x.1 = i
  · rw [if_pos hid]
    exact ⟨x, hx, by rw [hid]⟩
  · rw [if_neg hid] at hei
    exact absurd hei hid

theorem patchTasks_mem_of {db : DB} {i : Nat} {f : Task → Task} {e : Nat × Task}
    (he : e ∈ db.tasks) (hei : e.1 = i) :
    (i, f e.2) ∈ (patchTasks db i f).tasks := by
  have hm := List.mem_map_of_mem (fun x => if x.1 = i then (x.1, f x.2) else x) he
  have hg : (fun x => if x.1 = i then (x.1, f x.2) else x) e = (i, f e.2) := by
    dsimp only
    rw [if_pos hei, hei]
  rw [hg] at hm
  exact hm

theorem getTaskById_mem {db : DB} {i : Nat} {tk : Task}
    (h : getTaskById db i = some tk) : (i, tk) ∈ db.tasks := by
  unfold getTaskById at h
  cases hf : db.tasks.find? (fun e => decide (e.1 = i)) with
  | none => rw [hf] at h; exact absurd h (by simp)
  | some pr =>
    rw [hf] at h
    have h2 : pr.2 = tk := by simpa using h
    have hm := List.mem_of_find?_eq_some hf
    have hp := List.find?_some hf
    simp only [decide_eq_true_eq] at hp
    obtain ⟨a, b⟩ := pr
    dsimp at hp h2
    subst hp
    subst h2
    exact hm

theorem mem_statusList_iff {db : DB} {u : String} {st : TaskStatus}
    {e : Nat × Task} :
    e ∈ getTasksByUserAndStatus db u st ↔
      e ∈ db.tasks ∧ e.2.userId = u ∧ e.2.status = st := by
  simp [getTasksByUserAndStatus, List.mem_reverse, List.mem_filter, and_assoc]

/-! ## The claims -/

/-- C1, counterexample: the claimed equivalence `status = completed ↔
completedAt set` is NOT preserved by soft delete: creating, completing and
then soft-deleting (`remove`) a task through the endpoints yields a task
whose status is `deleted` while `completedAt` is still set, because
`softDeleteTask` patches only `status` and `updatedAt`. -/
theorem completedAt_iff_status_counterexample :
    removeCompletedTrace = .ok (some (.deleted, true)) := by decide

/-- C1, amended: every task reachable through the public endpoints
satisfies the two preserved directions: a completed task has `completedAt`
set and an active task has `completedAt` unset.  The iff as claimed fails
for soft-deleted tasks, which retain a stale `completedAt`. -/
theorem completedAt_alignment (db : DB) (h : Reachable db) :
    ∀ e ∈ db.tasks,
      (e.2.status = .completed → e.2.completedAt.isSome = true) ∧
      (e.2.status = .active → e.2.completedAt = none) :=
  fun e he => ⟨(h.tasksAligned e he).2, (h.tasksAligned e he).1⟩

/-- C1 witness: the amended invariant evaluated at the concrete task of
the store produced by a successful `create` call. -/
theorem completedAt_alignment_witness :
    ((0, Task.mk "u" "Buy milk" none .active none 0 0).2.status = .completed →
      (0, Task.mk "u" "Buy milk" none .active none 0 0).2.completedAt.isSome = true) ∧
    ((0, Task.mk "u" "Buy milk" none .active none 0 0).2.status = .active →
      (0, Task.mk "u" "Buy milk" none .active none 0 0).2.completedAt = none) :=
  completedAt_alignment _
    (Reachable.step Reachable.empty
      (@Step.create (some "u") true 0 DB.empty
        (createTask DB.empty 0 "u" "Buy milk" none).1 "Buy milk" none 0 (by decide)))
    (0, Task.mk "u" "Buy milk" none .active none 0 0) (by decide)

/-- C3, counterexample: `deleted` is not terminal under the endpoints:
creating, soft-deleting, then calling `reactivate` on a task moves it from
status `deleted` back to `active`, because no endpoint guards on the
prior status. -/
theorem deleted_terminal_counterexample :
    reactivateDeletedTrace = .ok (some .active) := by decide

/-- C3, amended: each mutating task endpoint sets the target's status
unconditionally on success: `complete` to `completed`, `reactivate` to
`active`, `remove` to `deleted`; `permanentlyDelete` removes the row and
`update` leaves every task's status unchanged.  Since no endpoint checks
the prior status, these transitions apply from any status, including
`deleted` (so soft-deleted tasks can be revived; only hard delete is
terminal). -/
theorem status_transition_targets (a : Option String) (r : Bool) (n i : Nat)
    (db b1 b2 b3 b4 b5 : DB) (t d : Option String)
    (h1 : Tasks.complete a r n db i = .ok b1)
    (h2 : Tasks.reactivate a r n db i = .ok b2)
    (h3 : Tasks.remove a r n db i = .ok b3)
    (h4 : Tasks.permanentlyDelete a r db i = .ok b4)
    (h5 : Tasks.update a r n db i t d = .ok b5) :
    (∀ e ∈ b1.tasks, e.1 = i → e.2.status = .completed) ∧
    (∀ e ∈ b2.tasks, e.1 = i → e.2.status = .active) ∧
    (∀ e ∈ b3.tasks, e.1 = i → e.2.status = .deleted) ∧
    (∀ e ∈ b4.tasks, e.1 ≠ i) ∧
    b5.tasks.map (fun e => (e.1, e.2.status)) =
      db.tasks.map (fun e => (e.1, e.2.status)) := by
  refine ⟨?_, ?_, ?_, ?_, ?_⟩
  · obtain ⟨u, task, -, -, -, -, hb⟩ := Tasks.complete_ok h1
    subst hb
    intro e he hei
    obtain ⟨x, -, hxe⟩ := patchTasks_at_id e he hei
    rw [hxe]
  · obtain ⟨u, task, -, -, -, -, hb⟩ := Tasks.reactivate_ok h2
    subst hb
    intro e he hei
    obtain ⟨x, -, hxe⟩ := patchTasks_at_id e he hei
    rw [hxe]
  · obtain ⟨u, task, -, -, -, -, hb⟩ := Tasks.remove_ok h3
    subst hb
    intro e he hei
    obtain ⟨x, -, hxe⟩ := patchTasks_at_id e he hei
    rw [hxe]
  · obtain ⟨u, task, -, -, -, -, hb⟩ := Tasks.permanentlyDelete_ok h4
    subst hb
    intro e he
    have hp := List.of_mem_filter he
    simpa using hp
  · obtain ⟨u, task, -, -, -, -, hb⟩ := Tasks.update_ok h5
    subst hb
    show (db.tasks.map _).map _ = _
    rw [List.map_map]
    apply List.map_congr_left
    intro e _
    dsimp only [Function.comp]
    split <;> rfl

/-- C3 witness: the amended transition targets evaluated on a concrete
store holding one task owned by the caller. -/
theorem status_transition_targets_witness :
    (∀ e ∈ (completeTask (createTask DB.empty 0 "u" "Buy milk" none).1 1 0).tasks,
        e.1 = 0 → e.2.status = .completed) ∧
    (∀ e ∈ (reactivateTask (createTask DB.empty 0 "u" "Buy milk" none).1 1 0).tasks,
        e.1 = 0 → e.2.status = .active) ∧
    (∀ e ∈ (softDeleteTask (createTask DB.empty 0 "u" "Buy milk" none).1 1 0).tasks,
        e.1 = 0 → e.2.status = .deleted) ∧
    (∀ e ∈ (hardDeleteTask (createTask DB.empty 0 "u" "Buy milk" none).1 0).tasks,
        e.1 ≠ 0) ∧
    (updateTask (createTask DB.empty 0 "u" "Buy milk" none).1 1 0 none none).tasks.map
        (fun e => (e.1, e.2.status)) =
      (createTask DB.empty 0 "u" "Buy milk" none).1.tasks.map
        (fun e => (e.1, e.2.status)) :=
  status_transition_targets (some "u") true 1 0
    (createTask DB.empty 0 "u" "Buy milk" none).1
    (completeTask (createTask DB.empty 0 "u" "Buy milk" none).1 1 0)
    (reactivateTask (createTask DB.empty 0 "u" "Buy milk" none).1 1 0)
    (softDeleteTask (createTask DB.empty 0 "u" "Buy milk" none).1 1 0)
    (hardDeleteTask (createTask DB.empty 0 "u" "Buy milk" none).1 0)
    (updateTask (createTask DB.empty 0 "u" "Buy milk" none).1 1 0 none none)
    none none
    (by decide) (by decide) (by decide) (by decide) (by decide)

/-- C2, counterexample: the claimed check order (validation before
ownership) fails on the task `update` endpoint: an authenticated,
non-rate-limited caller supplying an invalid title (the empty string) for
a task they do not own receives the not-authorized error, not the claimed
validation failure. -/
theorem check_order_counterexample :
    updateForeignInvalidTrace = .error .notAuthorized ∧
    isValidTaskTitle "" = false := by decide

/-- C2, amended: the endpoints check authentication, then the rate limit,
but the task `update` endpoint verifies ownership BEFORE validating its
input, while `sendMessage` validates before its ownership check: with an
authenticated, non-rate-limited caller, `update` on an existing unowned
task fails with not-authorized whatever the input, and `sendMessage` with
invalid content fails with the validation message whatever the thread. -/
theorem check_order (db : DB) (u : String) (i j n : Nat) (task : Task)
    (t d : Option String) (c : String)
    (hf : getTaskById db i = some task) (ho : task.userId ≠ u)
    (hc : isValidMessageContent c = false) :
    Tasks.update (some u) true n db i t d = .error .notAuthorized ∧
    Assistant.sendMessage (some u) true n db j c =
      .error (.validationFailed
        "Message content must be between 1 and 10,000 characters") := by
  constructor
  · unfold Tasks.update
    rw [hf]
    simp [ho]
  · unfold Assistant.sendMessage
    simp [hc]

/-- C2 witness: the amended check order evaluated on a concrete store
holding a task of user alice, called by user bob with invalid inputs. -/
theorem check_order_witness :
    Tasks.update (some "bob") true 1 (createTask DB.empty 0 "alice" "Buy milk" none).1
        0 (some "") none = .error .notAuthorized ∧
    Assistant.sendMessage (some "bob") true 1
        (createTask DB.empty 0 "alice" "Buy milk" none).1 0 "" =
      .error (.validationFailed
        "Message content must be between 1 and 10,000 characters") :=
  check_order (createTask DB.empty 0 "alice" "Buy milk" none).1 "bob" 0 0 1
    ⟨"alice", "Buy milk", none, .active, none, 0, 0⟩ (some "") none ""
    (by decide) (by decide) (by decide)

/-- C4: for every mutating task endpoint, an authenticated,
non-rate-limited caller targeting an existing task owned by a different
user receives the not-authorized error.  The endpoint returns without
invoking the database layer, so the store (and the task) is unchanged. -/
theorem foreign_task_not_authorized (db : DB) (u : String) (i n : Nat)
    (task : Task) (t d : Option String)
    (hf : getTaskById db i = some task) (ho : task.userId ≠ u) :
    Tasks.update (some u) true n db i t d = .error .notAuthorized ∧
    Tasks.complete (some u) true n db i = .error .notAuthorized ∧
    Tasks.reactivate (some u) true n db i = .error .notAuthorized ∧
    Tasks.remove (some u) true n db i = .error .notAuthorized ∧
    Tasks.permanentlyDelete (some u) true db i = .error .notAuthorized := by
  refine ⟨?_, ?_, ?_, ?_, ?_⟩
  · unfold Tasks.update
    rw [hf]
    simp [ho]
  · unfold Tasks.complete
    rw [hf]
    simp [ho]
  · unfold Tasks.reactivate
    rw [hf]
    simp [ho]
  · unfold Tasks.remove
    rw [hf]
    simp [ho]
  · unfold Tasks.permanentlyDelete
    rw [hf]
    simp [ho]

/-- C4 witness: the ownership failures evaluated on a concrete store
holding a task of user alice, with caller bob. -/
theorem foreign_task_not_authorized_witness :
    Tasks.update (some "bob") true 1 (createTask DB.empty 0 "alice" "Buy milk" none).1
        0 none none = .error .notAuthorized ∧
    Tasks.complete (some "bob") true 1
        (createTask DB.empty 0 "alice" "Buy milk" none).1 0 = .error .notAuthorized ∧
    Tasks.reactivate (some "bob") true 1
        (createTask DB.empty 0 "alice" "Buy milk" none).1 0 = .error .notAuthorized ∧
    Tasks.remove (some "bob") true 1
        (createTask DB.empty 0 "alice" "Buy milk" none).1 0 = .error .notAuthorized ∧
    Tasks.permanentlyDelete (some "bob") true
        (createTask DB.empty 0 "alice" "Buy milk" none).1 0 = .error .notAuthorized :=
  foreign_task_not_authorized (createTask DB.empty 0 "alice" "Buy milk" none).1
    "bob" 0 1 ⟨"alice", "Buy milk", none, .active, none, 0, 0⟩ none none
    (by decide) (by decide)

/-- C5: after a successful `deleteThread` call no message whose `threadId`
equals the deleted thread's id remains, and the thread row itself is gone
(the endpoint deletes the messages via `deleteMessagesByThread` and then
removes the thread row, which is modelled from the spec since
`convex/db/threads.ts` is absent from the source tree). -/
theorem deleteThread_cascades (db b : DB) (u : String) (i : Nat)
    (h : Assistant.deleteThread (some u) db i = .ok b) :
    (∀ e ∈ b.messages, e.2.threadId ≠ i) ∧ getThreadById b i = none := by
  obtain ⟨u2, thread, -, -, -, hb⟩ := Assistant.deleteThread_ok h
  subst hb
  constructor
  · intro e he
    have hp := List.of_mem_filter
      (show e ∈ db.messages.filter (fun x => decide (¬ x.2.threadId = i)) from he)
    simpa using hp
  · have hnone :
        (deleteThreadRow (deleteMessagesByThread db i) i).threads.find?
          (fun e => decide (e.1 = i)) = none := by
      apply List.find?_eq_none.mpr
      intro x hx
      have hp := List.of_mem_filter hx
      simp only [decide_eq_true_eq] at hp ⊢
      simpa using hp
    simp [getThreadById, hnone]

/-- C5 witness: cascade deletion evaluated on a concrete store holding one
thread owned by the caller. -/
theorem deleteThread_cascades_witness :
    (∀ e ∈ (deleteThreadRow
        (deleteMessagesByThread (createThread DB.empty 0 "u" none).1 0) 0).messages,
      e.2.threadId ≠ 0) ∧
    getThreadById (deleteThreadRow
        (deleteMessagesByThread (createThread DB.empty 0 "u" none).1 0) 0) 0 = none :=
  deleteThread_cascades (createThread DB.empty 0 "u" none).1
    (deleteThreadRow (deleteMessagesByThread (createThread DB.empty 0 "u" none).1 0) 0)
    "u" 0 (by decide)

set_option maxRecDepth 16384 in
/-- C6, counterexample: `isValidTaskTitle` does NOT accept every title of
length 200: a title of 200 whitespace characters has length 200 but is
rejected (its trimmed length is 0), and the `create` endpoint turns that
rejection into the validation error. -/
theorem title_boundary_counterexample :
    (String.mk (List.replicate 200 (' ' : Char))).length = 200 ∧
    isValidTaskTitle (String.mk (List.replicate 200 (' ' : Char))) = false ∧
    Tasks.create (some "u") true 0 DB.empty
        (String.mk (List.replicate 200 (' ' : Char))) none =
      .error (.validationFailed
        "Task title must be between 1 and 200 characters") := by
  refine ⟨by decide, by decide, by decide⟩

/-- C6, amended: `isValidTaskTitle` rejects every title of length 201, and
accepts a title of length 200 provided its trimmed length is positive
(i.e. it is not all whitespace); all-whitespace titles of length 200 are
rejected. -/
theorem title_boundary :
    (∀ t : String, t.length = 201 → isValidTaskTitle t = false) ∧
    (∀ t : String, t.length = 200 → 0 < (jsTrim t).length →
      isValidTaskTitle t = true) := by
  constructor
  · intro t ht
    simp [isValidTaskTitle, ht]
  · intro t ht htrim
    simp [isValidTaskTitle, ht, htrim]

set_option maxRecDepth 16384 in
/-- C6 witness: the boundary evaluated at the concrete titles of 201 and
200 repeated letters. -/
theorem title_boundary_witness :
    isValidTaskTitle (String.mk (List.replicate 201 ('a' : Char))) = false ∧
    isValidTaskTitle (String.mk (List.replicate 200 ('a' : Char))) = true :=
  ⟨title_boundary.1 _ (by decide), title_boundary.2 _ (by decide) (by decide)⟩

/-- C8, counterexample: the assistant's persisted reply is NOT a fixed
string independent of the input: the placeholder template interpolates the
incoming content, so two sends with different contents store different
assistant messages. -/
theorem placeholder_depends_on_input :
    (assistantReplyContent "a").toOption.isSome = true ∧
    (assistantReplyContent "b").toOption.isSome = true ∧
    assistantReplyContent "a" ≠ assistantReplyContent "b" := by
  refine ⟨by decide, by decide, by decide⟩

/-- C8, amended: a successful `sendMessage` persists exactly two messages,
in order: first the caller's message with role `user` and the given
content, then an assistant message whose content is the fixed placeholder
TEMPLATE `aiResponseContent` applied to the input (no model inference);
the assistant content therefore varies with the input. -/
theorem sendMessage_persists_pair (db b : DB) (u c : String) (n i j k : Nat)
    (h : Assistant.sendMessage (some u) true n db i c = .ok (b, j, k)) :
    j = db.nextId ∧ k = db.nextId + 1 ∧
    b.messages = db.messages ++
      [(j, { threadId := i, userId := u, role := .user, content := c,
             createdAt := n }),
       (k, { threadId := i, userId := u, role := .assistant,
             content := aiResponseContent c, createdAt := n })] := by
  obtain ⟨u2, thread, hu2, -, -, -, -, hp⟩ := Assistant.sendMessage_ok h
  have hu2e : u2 = u := by injection hu2 with hv; exact hv.symm
  subst hu2e
  have hb := congrArg (fun p => p.1) hp
  have hj := congrArg (fun p => p.2.1) hp
  have hk := congrArg (fun p => p.2.2) hp
  dsimp at hb hj hk
  subst hb
  subst hj
  subst hk
  refine ⟨rfl, rfl, ?_⟩
  simp [createMessage]

set_option maxRecDepth 16384 in
/-- C8 witness: the persisted pair evaluated on a concrete store holding
one thread owned by the caller. -/
theorem sendMessage_persists_pair_witness :
    (1 : Nat) = (createThread DB.empty 0 "u" none).1.nextId ∧
    (2 : Nat) = (createThread DB.empty 0 "u" none).1.nextId + 1 ∧
    (createMessage
        (createMessage (createThread DB.empty 0 "u" none).1 1 0 "u" .user "hi").1
        1 0 "u" .assistant (aiResponseContent "hi")).1.messages =
      (createThread DB.empty 0 "u" none).1.messages ++
      [(1, { threadId := 0, userId := "u", role := .user, content := "hi",
             createdAt := 1 }),
       (2, { threadId := 0, userId := "u", role := .assistant,
             content := aiResponseContent "hi", createdAt := 1 })] :=
  sendMessage_persists_pair (createThread DB.empty 0 "u" none).1
    (createMessage
      (createMessage (createThread DB.empty 0 "u" none).1 1 0 "u" .user "hi").1
      1 0 "u" .assistant (aiResponseContent "hi")).1
    "u" "hi" 1 0 1 2 (by decide)

/-- C10: the `create` endpoint stores the sanitized input (title trimmed
and truncated to 200 characters, description trimmed and truncated to
5000), while the `update` endpoint, after validating, writes its raw
arguments; `sanitizeTaskTitle " x" = "x"` exhibits a valid input with
leading whitespace on which the two stored titles differ. -/
theorem update_raw_create_sanitized (db db1 db2 : DB) (u s : String)
    (d : Option String) (n1 n2 i j : Nat)
    (hc : Tasks.create (some u) true n1 db s d = .ok (db1, j))
    (hu : Tasks.update (some u) true n2 db i (some s) none = .ok db2) :
    (∃ tk, db1.tasks = db.tasks ++ [(j, tk)] ∧
      tk.title = sanitizeTaskTitle s ∧ tk.description = sanitizeTaskDescription d) ∧
    (∀ e ∈ db2.tasks, e.1 = i → e.2.title = s) ∧
    sanitizeTaskTitle " x" = "x" := by
  refine ⟨?_, ?_, by decide⟩
  · obtain ⟨u0, hu0, -, -, -, hp⟩ := Tasks.create_ok hc
    have hb := congrArg Prod.fst hp
    have hj := congrArg Prod.snd hp
    dsimp at hb hj
    subst hb
    subst hj
    exact ⟨_, rfl, rfl, rfl⟩
  · obtain ⟨u0, task, -, -, -, -, hb⟩ := Tasks.update_ok hu
    subst hb
    intro e he hei
    obtain ⟨x, -, hxe⟩ := patchTasks_at_id e he hei
    rw [hxe]
    rfl

/-- C10 witness: the sanitization difference evaluated on a concrete store
with title argument a leading-space string. -/
theorem update_raw_create_sanitized_witness :
    (∃ tk, (createTask (createTask DB.empty 0 "u" "y" none).1 1 "u" "x" none).1.tasks =
        (createTask DB.empty 0 "u" "y" none).1.tasks ++ [(1, tk)] ∧
      tk.title = sanitizeTaskTitle " x" ∧
      tk.description = sanitizeTaskDescription none) ∧
    (∀ e ∈ (updateTask (createTask DB.empty 0 "u" "y" none).1 2 0 (some " x") none).tasks,
      e.1 = 0 → e.2.title = " x") ∧
    sanitizeTaskTitle " x" = "x" :=
  update_raw_create_sanitized (createTask DB.empty 0 "u" "y" none).1
    (createTask (createTask DB.empty 0 "u" "y" none).1 1 "u" "x" none).1
    (updateTask (createTask DB.empty 0 "u" "y" none).1 2 0 (some " x") none)
    "u" " x" none 1 2 0 1 (by decide) (by decide)

/-- C7: the create → complete → reactivate scenario: a freshly created
task of the authenticated user appears in `listActive`; after `complete`
it is absent from `listActive`, present in `listCompleted`, and its
`completedAt` is non-null; a subsequent `reactivate` reverses both list
memberships and clears `completedAt`. -/
theorem task_lifecycle (db db1 db2 db3 : DB) (u t : String) (d : Option String)
    (n1 n2 n3 i : Nat)
    (hc : Tasks.create (some u) true n1 db t d = .ok (db1, i))
    (hk : Tasks.complete (some u) true n2 db1 i = .ok db2)
    (hr : Tasks.reactivate (some u) true n3 db2 i = .ok db3) :
    (∃ l, Tasks.listActive (some u) db1 = .ok l ∧ ∃ e ∈ l, e.1 = i) ∧
    (∃ l, Tasks.listActive (some u) db2 = .ok l ∧ ∀ e ∈ l, e.1 ≠ i) ∧
    (∃ l, Tasks.listCompleted (some u) db2 = .ok l ∧ ∃ e ∈ l, e.1 = i) ∧
    (∀ tk, getTaskById db2 i = some tk → tk.completedAt.isSome = true) ∧
    (∃ l, Tasks.listActive (some u) db3 = .ok l ∧ ∃ e ∈ l, e.1 = i) ∧
    (∃ l, Tasks.listCompleted (some u) db3 = .ok l ∧ ∀ e ∈ l, e.1 ≠ i) ∧
    (∀ tk, getTaskById db3 i = some tk → tk.completedAt = none) := by
  obtain ⟨u0, hu0, -, -, -, hp⟩ := Tasks.create_ok hc
  have hu0e : u0 = u := by injection hu0 with hv; exact hv.symm
  subst hu0e
  have hb1 := congrArg Prod.fst hp
  have hi := congrArg Prod.snd hp
  dsimp at hb1 hi
  subst hb1
  subst hi
  obtain ⟨u2, task2, -, -, -, -, hb2⟩ := Tasks.complete_ok hk
  subst hb2
  obtain ⟨u3, task3, -, -, -, -, hb3⟩ := Tasks.reactivate_ok hr
  subst hb3
  have hm0 : (db.nextId,
      Task.mk u0 (sanitizeTaskTitle t) (sanitizeTaskDescription d) .active none n1 n1) ∈
      ((createTask db n1 u0 (sanitizeTaskTitle t) (sanitizeTaskDescription d)).1).tasks :=
    List.mem_append_right _ (List.mem_singleton_self _)
  refine ⟨?_, ?_, ?_, ?_, ?_, ?_, ?_⟩
  · exact ⟨_, rfl, ⟨(db.nextId,
      Task.mk u0 (sanitizeTaskTitle t) (sanitizeTaskDescription d) .active none n1 n1),
      mem_statusList_iff.mpr ⟨hm0, rfl, rfl⟩, rfl⟩⟩
  · refine ⟨_, rfl, ?_⟩
    intro e he hei
    have hms := mem_statusList_iff.mp he
    obtain ⟨x, -, hxe⟩ := patchTasks_at_id e hms.1 hei
    have hst := hms.2.2
    rw [hxe] at hst
    simp at hst
  · exact ⟨_, rfl, ⟨(db.nextId,
      Task.mk u0 (sanitizeTaskTitle t) (sanitizeTaskDescription d) .completed (some n2) n1 n2),
      mem_statusList_iff.mpr ⟨patchTasks_mem_of hm0 rfl, rfl, rfl⟩, rfl⟩⟩
  · intro tk htk
    obtain ⟨x, -, hxe⟩ := patchTasks_at_id _ (getTaskById_mem htk) rfl
    have hsnd := congrArg Prod.snd hxe
    dsimp at hsnd
    rw [hsnd]
    rfl
  · exact ⟨_, rfl, ⟨(db.nextId,
      Task.mk u0 (sanitizeTaskTitle t) (sanitizeTaskDescription d) .active none n1 n3),
      mem_statusList_iff.mpr ⟨patchTasks_mem_of (patchTasks_mem_of hm0 rfl) rfl, rfl, rfl⟩, rfl⟩⟩
  · refine ⟨_, rfl, ?_⟩
    intro e he hei
    have hms := mem_statusList_iff.mp he
    obtain ⟨x, -, hxe⟩ := patchTasks_at_id e hms.1 hei
    have hst := hms.2.2
    rw [hxe] at hst
    simp at hst
  · intro tk htk
    obtain ⟨x, -, hxe⟩ := patchTasks_at_id _ (getTaskById_mem htk) rfl
    have hsnd := congrArg Prod.snd hxe
    dsimp at hsnd
    rw [hsnd]

/-- C7 witness: the lifecycle scenario run concretely from the empty store
with title "Buy milk". -/
theorem task_lifecycle_witness :
    (∃ l, Tasks.listActive (some "u") (createTask DB.empty 0 "u" "Buy milk" none).1 =
        .ok l ∧ ∃ e ∈ l, e.1 = 0) ∧
    (∃ l, Tasks.listActive (some "u")
        (completeTask (createTask DB.empty 0 "u" "Buy milk" none).1 1 0) = .ok l ∧
      ∀ e ∈ l, e.1 ≠ 0) ∧
    (∃ l, Tasks.listCompleted (some "u")
        (completeTask (createTask DB.empty 0 "u" "Buy milk" none).1 1 0) = .ok l ∧
      ∃ e ∈ l, e.1 = 0) ∧
    (∀ tk, getTaskById
        (completeTask (createTask DB.empty 0 "u" "Buy milk" none).1 1 0) 0 = some tk →
      tk.completedAt.isSome = true) ∧
    (∃ l, Tasks.listActive (some "u")
        (reactivateTask (completeTask (createTask DB.empty 0 "u" "Buy milk" none).1 1 0) 2 0) =
        .ok l ∧ ∃ e ∈ l, e.1 = 0) ∧
    (∃ l, Tasks.listCompleted (some "u")
        (reactivateTask (completeTask (createTask DB.empty 0 "u" "Buy milk" none).1 1 0) 2 0) =
        .ok l ∧ ∀ e ∈ l, e.1 ≠ 0) ∧
    (∀ tk, getTaskById
        (reactivateTask (completeTask (createTask DB.empty 0 "u" "Buy milk" none).1 1 0) 2 0) 0 =
        some tk → tk.completedAt = none) :=
  task_lifecycle DB.empty (createTask DB.empty 0 "u" "Buy milk" none).1
    (completeTask (createTask DB.empty 0 "u" "Buy milk" none).1 1 0)
    (reactivateTask (completeTask (createTask DB.empty 0 "u" "Buy milk" none).1 1 0) 2 0)
    "u" "Buy milk" none 0 1 2 0 (by decide) (by decide) (by decide)

/-- C9: on every reachable store, the task list endpoints (`list`,
`listActive`, `listCompleted`) return rows whose ids (which record
creation order) strictly decrease along the result — reverse creation
order — and `getThread` returns the thread's messages with strictly
increasing ids — ascending chronological (creation) order. -/
theorem list_ordering (db : DB) (h : Reachable db) (u : String) (i : Nat)
    (l la lc : List (Nat × Task)) (p : Thread × List (Nat × Message))
    (hl : Tasks.list (some u) db = .ok l)
    (hla : Tasks.listActive (some u) db = .ok la)
    (hlc : Tasks.listCompleted (some u) db = .ok lc)
    (hg : Assistant.getThread (some u) db i = .ok p) :
    l.Pairwise (fun a b => b.1 < a.1) ∧
    la.Pairwise (fun a b => b.1 < a.1) ∧
    lc.Pairwise (fun a b => b.1 < a.1) ∧
    p.2.Pairwise (fun a b => a.1 < b.1) := by
  have htasks := h.storeInv.1.1
  have hmsgs := (h.storeInv.2.2).1
  have hl1 : getTasksByUser db u = l := by injection hl
  have hla1 : getActiveTasksByUser db u = la := by injection hla
  have hlc1 : getCompletedTasksByUser db u = lc := by injection hlc
  obtain ⟨u0, thread, -, -, -, hp⟩ := Assistant.getThread_ok hg
  subst hl1
  subst hla1
  subst hlc1
  subst hp
  refine ⟨?_, ?_, ?_, ?_⟩
  · rw [getTasksByUser, List.pairwise_reverse]
    exact List.Pairwise.sublist (List.filter_sublist _) htasks
  · rw [getActiveTasksByUser, getTasksByUserAndStatus, List.pairwise_reverse]
    exact List.Pairwise.sublist (List.filter_sublist _) htasks
  · rw [getCompletedTasksByUser, getTasksByUserAndStatus, List.pairwise_reverse]
    exact List.Pairwise.sublist (List.filter_sublist _) htasks
  · show (getMessagesByThread db i).Pairwise _
    rw [getMessagesByThread]
    exact List.Pairwise.sublist (List.filter_sublist _) hmsgs

set_option maxRecDepth 16384 in
/-- C9 witness: the orderings evaluated on the concrete reachable store
`sampleDB` (a thread, two chat messages, one task). -/
theorem list_ordering_witness :
    (getTasksByUser sampleDB "u").Pairwise (fun a b => b.1 < a.1) ∧
    (getActiveTasksByUser sampleDB "u").Pairwise (fun a b => b.1 < a.1) ∧
    (getCompletedTasksByUser sampleDB "u").Pairwise (fun a b => b.1 < a.1) ∧
    (getMessagesByThread sampleDB 0).Pairwise (fun a b => a.1 < b.1) :=
  list_ordering sampleDB
    (Reachable.step
      (Reachable.step
        (Reachable.step Reachable.empty
          (@Step.createThread (some "u") true 0 DB.empty
            (createThread DB.empty 0 "u" none).1 none 0 (by decide)))
        (@Step.sendMessage (some "u") true 1 0 1 2
          (createThread DB.empty 0 "u" none).1
          (createMessage
            (createMessage (createThread DB.empty 0 "u" none).1 1 0 "u" .user "hello").1
            1 0 "u" .assistant (aiResponseContent "hello")).1
          "hello" (by decide)))
      (@Step.create (some "u") true 2
        (createMessage
          (createMessage (createThread DB.empty 0 "u" none).1 1 0 "u" .user "hello").1
          1 0 "u" .assistant (aiResponseContent "hello")).1
        sampleDB "Buy milk" none 3 (by decide)))
    "u" 0 _ _ _
    (⟨"u", none, .active, 0, 0⟩, getMessagesByThread sampleDB 0)
    rfl rfl rfl (by decide)

end Todo
